import Mathlib

/-!
Verification of the event-management CRUD backend (`src/app.py`).

Strings are modelled as `List Char`; byte payloads as `List Nat`.
Each Python helper and HTTP handler is translated into a pure Lean
function; the MongoDB store is an explicit `AppState` record of
association lists, and every handler returns its response together
with the (possibly updated) state.
-/

namespace EventApp

/-- Error kinds surfaced by the handlers (section 7 of the design
documentation). In the code these are `HTTPException`s / `ValueError`s:
`invalidId` is the 400 "Invalid ID format", `notFound` the 404s,
`fieldTooLong` the `ValueError` raised by `sanitize_string`,
`invalidFormat` the `ValueError`s of the email/phone/date validators,
and `missingFilename` the `ValueError("Filename is required")` raised
by the poster/video upload handlers. -/
inductive Err where
  | invalidId
  | notFound
  | fieldTooLong
  | invalidFormat
  | missingFilename
deriving DecidableEq, Repr

instance {ε α : Type} [DecidableEq ε] [DecidableEq α] : DecidableEq (Except ε α) := fun x y =>
  match x, y with
  | .ok a, .ok b =>
      if h : a = b then isTrue (by rw [h]) else isFalse (by intro k; cases k; exact h rfl)
  | .error a, .error b =>
      if h : a = b then isTrue (by rw [h]) else isFalse (by intro k; cases k; exact h rfl)
  | .ok _, .error _ => isFalse (by intro k; cases k)
  | .error _, .ok _ => isFalse (by intro k; cases k)

/-! ## Character classes -/

/-- Characters stripped by Python's `str.strip()` (the codepoints for
which `str.isspace()` holds). -/
def pyIsSpace (c : Char) : Bool :=
  let n := c.toNat
  (9 ≤ n && n ≤ 13) || (28 ≤ n && n ≤ 32) || n == 0x85 || n == 0xa0 ||
  n == 0x1680 || (0x2000 ≤ n && n ≤ 0x200a) || n == 0x2028 || n == 0x2029 ||
  n == 0x202f || n == 0x205f || n == 0x3000

def isAsciiAlpha (c : Char) : Bool :=
  ('a' ≤ c && c ≤ 'z') || ('A' ≤ c && c ≤ 'Z')

def isAsciiDigit (c : Char) : Bool :=
  '0' ≤ c && c ≤ '9'

def isHexDig (c : Char) : Bool :=
  isAsciiDigit c || ('a' ≤ c && c ≤ 'f') || ('A' ≤ c && c ≤ 'F')

/-- The character class `[a-zA-Z0-9._%+-]` of the email regex. -/
def emailLocalChar (c : Char) : Bool :=
  isAsciiAlpha c || isAsciiDigit c || c == '.' || c == '_' || c == '%' || c == '+' || c == '-'

/-- The character class `[a-zA-Z0-9.-]` of the email regex. -/
def domainChar (c : Char) : Bool :=
  isAsciiAlpha c || isAsciiDigit c || c == '.' || c == '-'

/-- The character class `[\d+\-() ]` of the phone regex.  Python's `\d`
matches any Unicode decimal digit; all inputs of interest are ASCII, so
the class is modelled on ASCII digits. -/
def phoneChar (c : Char) : Bool :=
  isAsciiDigit c || c == '+' || c == '-' || c == '(' || c == ')' || c == ' '

/-- The character class `[<>:"/\\|?*\x00-\x1f]` removed by
`sanitize_filename` (app.py line 117). -/
def isDangerous (c : Char) : Bool :=
  c == '<' || c == '>' || c == ':' || c == '"' || c == '/' || c == '\\' ||
  c == '|' || c == '?' || c == '*' || c.toNat < 0x20

/-! ## `sanitize_string` (app.py lines 101-110) -/

/-- `value.replace('\x00', '')` — removal of null bytes. -/
def removeNull (l : List Char) : List Char :=
  l.filter (fun c => !(c == '\x00'))

/-- Python's `str.strip()`: drop leading and trailing whitespace. -/
def pyStrip (l : List Char) : List Char :=
  ((l.dropWhile pyIsSpace).reverse.dropWhile pyIsSpace).reverse

/-- `sanitize_string` (app.py lines 101-110): remove null bytes, raise
`ValueError` (`fieldTooLong`) if more than 5000 characters remain,
otherwise return the stripped value. -/
def sanitize_string (l : List Char) : Except Err (List Char) :=
  let v := removeNull l
  if 5000 < v.length then .error .fieldTooLong else .ok (pyStrip v)

/-! ## `sanitize_filename` (app.py lines 112-126) -/

/-- Split a list of characters at `'/'` separators. -/
def splitOnSlash : List Char → List (List Char)
  | [] => [[]]
  | c :: rest =>
    if c == '/' then [] :: splitOnSlash rest
    else
      match splitOnSlash rest with
      | [] => [[c]]
      | h :: t => (c :: h) :: t

/-- `Path(filename).name` of Python's `pathlib` (POSIX flavour): the
last path component, where empty components and bare `"."` components
are dropped during parsing (so `Path(".").name = ""` while
`Path("..").name = ".."`). -/
def pathName (l : List Char) : List Char :=
  let comps := (splitOnSlash l).filter (fun c => !(c.isEmpty) && !(c == ['.']))
  (comps.getLast?).getD []

/-- `filename.replace('..', '')`: Python removes the non-overlapping
occurrences of `".."` scanning left to right, without rescanning the
already-produced output. -/
def replaceDotDot : List Char → List Char
  | [] => []
  | [c] => [c]
  | a :: b :: rest =>
    if a == '.' && b == '.' then replaceDotDot rest
    else a :: replaceDotDot (b :: rest)

/-- `sanitize_filename` (app.py lines 112-126). -/
def sanitize_filename (l : List Char) : List Char :=
  let f1 := pathName l
  let f2 := f1.filter (fun c => !(isDangerous c))
  let f3 := replaceDotDot f2
  let f4 := if f3.isEmpty then "file".data else f3
  f4.take 255

/-! ## Email / phone regex matching (app.py lines 183-201)

The email regex is `^[a-zA-Z0-9._%+-]+@[a-zA-Z0-9.-]+\.[a-zA-Z]{2,}$`.
Neither character class contains `'@'`, and the top-level segment
`[a-zA-Z]{2,}` cannot contain a dot, so the regex is decided by
splitting at the (necessarily unique) `'@'` and at the last `'.'` of
the domain part. -/

/-- Match `[a-zA-Z0-9.-]+\.[a-zA-Z]{2,}$` against the part after `'@'`:
scan from the right for the last `'.'` (the top-level segment is
letters only, so the separating dot of any successful regex
decomposition is the rightmost dot), the suffix must be at least two
letters and the prefix a nonempty run of domain characters. -/
def matchDomain (l : List Char) : Bool :=
  match l.reverse.dropWhile (fun c => !(c == '.')) with
  | [] => false
  | x :: dRev =>
    let tld := (l.reverse.takeWhile (fun c => !(c == '.'))).reverse
    (x == '.') && (2 ≤ tld.length) && tld.all isAsciiAlpha && !dRev.isEmpty &&
      dRev.all domainChar

/-- Consume `[a-zA-Z0-9._%+-]*@` and hand the remainder to
`matchDomain`. -/
def goLocal : List Char → Bool
  | [] => false
  | c :: rest => if c == '@' then matchDomain rest else emailLocalChar c && goLocal rest

/-- `re.match(r'^[a-zA-Z0-9._%+-]+@[a-zA-Z0-9.-]+\.[a-zA-Z]{2,}$', v)`
(app.py line 189). -/
def matchEmail : List Char → Bool
  | [] => false
  | c :: rest => emailLocalChar c && goLocal rest

/-- `re.match(r'^[\d+\-() ]{7,}$', v)` (app.py line 199). -/
def matchPhone (l : List Char) : Bool :=
  7 ≤ l.length && l.all phoneChar

/-- `Attendee.validate_email` (app.py lines 183-191): sanitize, then
require the email regex to match, returning the sanitized value. -/
def validate_email (l : List Char) : Except Err (List Char) :=
  match sanitize_string l with
  | .error e => .error e
  | .ok v => if matchEmail v then .ok v else .error .invalidFormat

/-- `Attendee.validate_phone` (app.py lines 193-201): `None` passes
through; a string is sanitized and must match the phone regex. -/
def validate_phone : Option (List Char) → Except Err (Option (List Char))
  | none => .ok none
  | some l =>
    match sanitize_string l with
    | .error e => .error e
    | .ok v => if matchPhone v then .ok (some v) else .error .invalidFormat

/-! ## Identifier translation (app.py lines 94-99) -/

/-- A string is a well-formed BSON `ObjectId` when it is 24 hexadecimal
characters (the string constructor of `bson.objectid.ObjectId`). -/
def isValidOIdStr (l : List Char) : Bool :=
  l.length == 24 && l.all isHexDig

/-- `validate_object_id` (app.py lines 94-99): convert the external
string to the store identifier (canonically lowercase, as produced by
`str(ObjectId(...))`), raising the 400 "Invalid ID format" otherwise. -/
def validate_object_id (l : List Char) : Except Err (List Char) :=
  if isValidOIdStr l then .ok (l.map Char.toLower) else .error .invalidId

/-! ## Data model (app.py lines 128-250) -/

/-- Media kind tags (`MediaType` enum, app.py lines 130-134). -/
inductive MediaType where
  | poster
  | promo_video
  | venue_photo
deriving DecidableEq, Repr

/-- A validated `Event` body (app.py lines 136-168). -/
structure Event where
  name : List Char
  description : List Char
  date : List Char
  venue_id : List Char
  max_attendees : Int
deriving DecidableEq, Repr

/-- A validated `Attendee` body (app.py lines 170-201); `phone` is
optional with default `None`, so a body that omits it parses to
`phone = none`. -/
structure Attendee where
  name : List Char
  email : List Char
  phone : Option (List Char)
deriving DecidableEq, Repr

/-- A validated `Venue` body (app.py lines 203-221). -/
structure Venue where
  name : List Char
  address : List Char
  capacity : Int
deriving DecidableEq, Repr

/-- A validated `Booking` body (app.py lines 223-242). -/
structure Booking where
  event_id : List Char
  attendee_ids : List (List Char)
  ticket_type : List Char
  quantity : Int
deriving DecidableEq, Repr

/-- Stored attendee document: the validated fields plus the
`registered_at` timestamp added at creation (app.py line 324). -/
structure AttendeeDoc where
  fields : Attendee
  registered_at : Nat
deriving DecidableEq, Repr

/-- Stored venue document: validated fields plus `created_at`
(app.py line 388). -/
structure VenueDoc where
  fields : Venue
  created_at : Nat
deriving DecidableEq, Repr

/-- Stored booking document: validated fields plus `booked_at`
(app.py line 452). -/
structure BookingDoc where
  fields : Booking
  booked_at : Nat
deriving DecidableEq, Repr

/-- Stored media document (poster / promo video / venue photo): the
owning id is kept under the key `"event_id"` or `"venue_id"` depending
on the kind; `content_type` is the client-declared value, which FastAPI
may leave absent. -/
structure MediaDoc where
  owner : List Char
  filename : List Char
  content_type : Option (List Char)
  media_type : MediaType
  content : List Nat
  uploaded_at : Nat
deriving DecidableEq, Repr

/-- The document store: one association list per collection, keyed by
the canonical id string, plus a counter modelling the store's id
generation. -/
structure AppState where
  events : List (List Char × Event)
  attendees : List (List Char × AttendeeDoc)
  venues : List (List Char × VenueDoc)
  bookings : List (List Char × BookingDoc)
  event_posters : List (List Char × MediaDoc)
  promo_videos : List (List Char × MediaDoc)
  venue_photos : List (List Char × MediaDoc)
  nextId : Nat
deriving DecidableEq, Repr

/-- The empty store. -/
def emptyState : AppState :=
  ⟨[], [], [], [], [], [], [], 0⟩

/-- A fresh store-generated identifier: 24 lowercase hex characters. -/
def genOId (n : Nat) : List Char :=
  let d := Nat.toDigits 16 n
  List.replicate (24 - d.length) '0' ++ d

/-! ## Collection primitives (MongoDB driver calls) -/

/-- `collection.find_one({"_id": oid})`: the first document whose
identifier matches. -/
def lookupId {α : Type} : List (List Char × α) → List Char → Option α
  | [], _ => none
  | p :: rest, oid => if p.1 == oid then some p.2 else lookupId rest oid

/-- Whether `update_one` / `delete_one` on `{"_id": oid}` matches a
document (`matched_count` / `deleted_count` nonzero). -/
def matchedCount {α : Type} : List (List Char × α) → List Char → Bool
  | [], _ => false
  | p :: rest, oid => if p.1 == oid then true else matchedCount rest oid

/-- `update_one({"_id": oid}, {"$set": ...})`: rewrite the matching
document with `f`, leaving its identifier and all other documents
alone. -/
def setById {α : Type} : List (List Char × α) → List Char → (α → α) → List (List Char × α)
  | [], _, _ => []
  | p :: rest, oid, f => (if p.1 == oid then (p.1, f p.2) else p) :: setById rest oid f

/-- `delete_one({"_id": oid})` (identifiers are unique, so dropping
every match removes the single matching document). -/
def removeById {α : Type} : List (List Char × α) → List Char → List (List Char × α)
  | [], _ => []
  | p :: rest, oid =>
    if p.1 == oid then removeById rest oid else p :: removeById rest oid

/-! ## Entity CRUD handlers (app.py lines 252-508)

Every handler returns its response paired with the resulting store
state; read-only handlers return the input state unchanged.  Handlers
whose code calls `datetime.now(UTC)` take the current instant as an
explicit `now` argument. -/

/-- `GET /events` (app.py lines 261-268). -/
def get_events (s : AppState) : List (List Char × Event) × AppState :=
  (s.events, s)

/-- `GET /attendees` (app.py lines 328-334). -/
def get_attendees (s : AppState) : List (List Char × AttendeeDoc) × AppState :=
  (s.attendees, s)

/-- `GET /venues` (app.py lines 392-398). -/
def get_venues (s : AppState) : List (List Char × VenueDoc) × AppState :=
  (s.venues, s)

/-- `GET /bookings` (app.py lines 456-462). -/
def get_bookings (s : AppState) : List (List Char × BookingDoc) × AppState :=
  (s.bookings, s)

/-- `GET /events/{event_id}` (app.py lines 270-284). -/
def get_event (event_id : List Char) (s : AppState) : Except Err Event × AppState :=
  match validate_object_id event_id with
  | .error e => (.error e, s)
  | .ok oid =>
    match lookupId s.events oid with
    | some ev => (.ok ev, s)
    | none => (.error .notFound, s)

/-- `GET /attendees/{attendee_id}` (app.py lines 336-349). -/
def get_attendee (attendee_id : List Char) (s : AppState) : Except Err AttendeeDoc × AppState :=
  match validate_object_id attendee_id with
  | .error e => (.error e, s)
  | .ok oid =>
    match lookupId s.attendees oid with
    | some d => (.ok d, s)
    | none => (.error .notFound, s)

/-- `GET /venues/{venue_id}` (app.py lines 400-413). -/
def get_venue (venue_id : List Char) (s : AppState) : Except Err VenueDoc × AppState :=
  match validate_object_id venue_id with
  | .error e => (.error e, s)
  | .ok oid =>
    match lookupId s.venues oid with
    | some d => (.ok d, s)
    | none => (.error .notFound, s)

/-- `GET /bookings/{booking_id}` (app.py lines 464-477). -/
def get_booking (booking_id : List Char) (s : AppState) : Except Err BookingDoc × AppState :=
  match validate_object_id booking_id with
  | .error e => (.error e, s)
  | .ok oid =>
    match lookupId s.bookings oid with
    | some d => (.ok d, s)
    | none => (.error .notFound, s)

/-- `PUT /events/{event_id}` (app.py lines 286-302): `$set` with the
full `model_dump`, i.e. every validated field of the matched document
is overwritten with the body's value. -/
def update_event (event_id : List Char) (e : Event) (s : AppState) :
    Except Err (List Char) × AppState :=
  match validate_object_id event_id with
  | .error err => (.error err, s)
  | .ok oid =>
    if matchedCount s.events oid then
      (.ok event_id, { s with events := setById s.events oid (fun _ => e) })
    else (.error .notFound, s)

/-- `PUT /attendees/{attendee_id}` (app.py lines 351-366): `$set` with
the full `model_dump` (keys `name`, `email`, `phone`); the
`registered_at` key is not in the dump and is untouched. -/
def update_attendee (attendee_id : List Char) (a : Attendee) (s : AppState) :
    Except Err (List Char) × AppState :=
  match validate_object_id attendee_id with
  | .error err => (.error err, s)
  | .ok oid =>
    if matchedCount s.attendees oid then
      (.ok attendee_id,
       { s with attendees :=
           setById s.attendees oid (fun d => { fields := a, registered_at := d.registered_at }) })
    else (.error .notFound, s)

/-- `PUT /venues/{venue_id}` (app.py lines 415-430). -/
def update_venue (venue_id : List Char) (v : Venue) (s : AppState) :
    Except Err (List Char) × AppState :=
  match validate_object_id venue_id with
  | .error err => (.error err, s)
  | .ok oid =>
    if matchedCount s.venues oid then
      (.ok venue_id,
       { s with venues :=
           setById s.venues oid (fun d => { fields := v, created_at := d.created_at }) })
    else (.error .notFound, s)

/-- `PUT /bookings/{booking_id}` (app.py lines 479-494). -/
def update_booking (booking_id : List Char) (b : Booking) (s : AppState) :
    Except Err (List Char) × AppState :=
  match validate_object_id booking_id with
  | .error err => (.error err, s)
  | .ok oid =>
    if matchedCount s.bookings oid then
      (.ok booking_id,
       { s with bookings :=
           setById s.bookings oid (fun d => { fields := b, booked_at := d.booked_at }) })
    else (.error .notFound, s)

/-- `DELETE /events/{event_id}` (app.py lines 304-316). -/
def delete_event (event_id : List Char) (s : AppState) :
    Except Err (List Char) × AppState :=
  match validate_object_id event_id with
  | .error err => (.error err, s)
  | .ok oid =>
    if matchedCount s.events oid then
      (.ok event_id, { s with events := removeById s.events oid })
    else (.error .notFound, s)

/-- `DELETE /attendees/{attendee_id}` (app.py lines 368-380). -/
def delete_attendee (attendee_id : List Char) (s : AppState) :
    Except Err (List Char) × AppState :=
  match validate_object_id attendee_id with
  | .error err => (.error err, s)
  | .ok oid =>
    if matchedCount s.attendees oid then
      (.ok attendee_id, { s with attendees := removeById s.attendees oid })
    else (.error .notFound, s)

/-- `DELETE /venues/{venue_id}` (app.py lines 432-444). -/
def delete_venue (venue_id : List Char) (s : AppState) :
    Except Err (List Char) × AppState :=
  match validate_object_id venue_id with
  | .error err => (.error err, s)
  | .ok oid =>
    if matchedCount s.venues oid then
      (.ok venue_id, { s with venues := removeById s.venues oid })
    else (.error .notFound, s)

/-- `DELETE /bookings/{booking_id}` (app.py lines 496-508). -/
def delete_booking (booking_id : List Char) (s : AppState) :
    Except Err (List Char) × AppState :=
  match validate_object_id booking_id with
  | .error err => (.error err, s)
  | .ok oid =>
    if matchedCount s.bookings oid then
      (.ok booking_id, { s with bookings := removeById s.bookings oid })
    else (.error .notFound, s)

/-! ## Media handlers (app.py lines 510-718) -/

/-- Python's truthiness test `not file.filename` (upload handlers):
true when the filename is absent or the empty string. -/
def filenameMissing : Option (List Char) → Bool
  | none => true
  | some [] => true
  | some (_ :: _) => false

/-- Python's `file.filename or "file"`: the fallback fires on `None`
and on the empty string. -/
def filenameOrDefault : Option (List Char) → List Char
  | none => "file".data
  | some [] => "file".data
  | some (c :: cs) => c :: cs

/-- `POST /upload_event_poster/{event_id}` (app.py lines 512-535):
validates the id, reads the payload, rejects a missing filename
(`ValueError("Filename is required")`, surfaced as a 400), sanitizes
the filename and inserts the media document. -/
def upload_event_poster (event_id : List Char) (filename : Option (List Char))
    (ctype : Option (List Char)) (content : List Nat) (now : Nat) (s : AppState) :
    Except Err (List Char) × AppState :=
  match validate_object_id event_id with
  | .error e => (.error e, s)
  | .ok oid =>
    if filenameMissing filename then (.error .missingFilename, s)
    else
      let fn := sanitize_filename (filenameOrDefault filename)
      let newId := genOId s.nextId
      (.ok newId,
       { s with
           event_posters := s.event_posters ++
             [(newId, ⟨oid, fn, ctype, .poster, content, now⟩)],
           nextId := s.nextId + 1 })

/-- `POST /upload_promo_video/{event_id}` (app.py lines 564-587):
identical to the poster upload, targeting the `promo_videos`
collection. -/
def upload_promo_video (event_id : List Char) (filename : Option (List Char))
    (ctype : Option (List Char)) (content : List Nat) (now : Nat) (s : AppState) :
    Except Err (List Char) × AppState :=
  match validate_object_id event_id with
  | .error e => (.error e, s)
  | .ok oid =>
    if filenameMissing filename then (.error .missingFilename, s)
    else
      let fn := sanitize_filename (filenameOrDefault filename)
      let newId := genOId s.nextId
      (.ok newId,
       { s with
           promo_videos := s.promo_videos ++
             [(newId, ⟨oid, fn, ctype, .promo_video, content, now⟩)],
           nextId := s.nextId + 1 })

/-- `POST /upload_venue_photo/{venue_id}` (app.py lines 616-637):
unlike the other two upload handlers this one has no
`if not file.filename` check — a missing or empty filename falls back
to `"file"` and the insert proceeds. -/
def upload_venue_photo (venue_id : List Char) (filename : Option (List Char))
    (ctype : Option (List Char)) (content : List Nat) (now : Nat) (s : AppState) :
    Except Err (List Char) × AppState :=
  match validate_object_id venue_id with
  | .error e => (.error e, s)
  | .ok oid =>
    let fn := sanitize_filename (filenameOrDefault filename)
    let newId := genOId s.nextId
    (.ok newId,
     { s with
         venue_photos := s.venue_photos ++
           [(newId, ⟨oid, fn, ctype, .venue_photo, content, now⟩)],
         nextId := s.nextId + 1 })

/-- Metadata rendered by the list-for-owner handlers: identifier,
filename, content type, upload time and constructed download path —
note there is no `content` field. -/
structure MediaMeta where
  id : List Char
  filename : List Char
  content_type : Option (List Char)
  uploaded_at : Nat
  download_url : List Char
deriving DecidableEq, Repr

/-- Newest-first ordering used by `find(..., sort=[("uploaded_at", -1)])`. -/
def newerFirst (a b : List Char × MediaDoc) : Prop :=
  b.2.uploaded_at ≤ a.2.uploaded_at

instance : DecidableRel newerFirst := fun a b =>
  inferInstanceAs (Decidable (b.2.uploaded_at ≤ a.2.uploaded_at))

instance : IsTotal (List Char × MediaDoc) newerFirst :=
  ⟨fun a b => Nat.le_total b.2.uploaded_at a.2.uploaded_at⟩

instance : IsTrans (List Char × MediaDoc) newerFirst :=
  ⟨fun _ _ _ h1 h2 => Nat.le_trans h2 h1⟩

/-- `find({owner-key: oid}, sort=[("uploaded_at", -1)])`. -/
def findByOwnerNewest (coll : List (List Char × MediaDoc)) (oid : List Char) :
    List (List Char × MediaDoc) :=
  List.insertionSort newerFirst (coll.filter (fun p => p.2.owner == oid))

/-- The metadata row built by `get_event_poster` (app.py lines 549-558). -/
def posterMeta (p : List Char × MediaDoc) : MediaMeta :=
  ⟨p.1, p.2.filename, p.2.content_type, p.2.uploaded_at, "/media/poster/".data ++ p.1⟩

/-- The metadata row built by `get_promo_video` (app.py lines 601-610). -/
def videoMeta (p : List Char × MediaDoc) : MediaMeta :=
  ⟨p.1, p.2.filename, p.2.content_type, p.2.uploaded_at, "/media/video/".data ++ p.1⟩

/-- The metadata row built by `get_venue_photo` (app.py lines 651-660). -/
def photoMeta (p : List Char × MediaDoc) : MediaMeta :=
  ⟨p.1, p.2.filename, p.2.content_type, p.2.uploaded_at, "/media/photo/".data ++ p.1⟩

/-- `GET /event_poster/{event_id}` (app.py lines 537-562). -/
def get_event_poster (event_id : List Char) (s : AppState) :
    Except Err (List MediaMeta) × AppState :=
  match validate_object_id event_id with
  | .error e => (.error e, s)
  | .ok oid =>
    let posters := findByOwnerNewest s.event_posters oid
    if posters.isEmpty then (.error .notFound, s)
    else (.ok (posters.map posterMeta), s)

/-- `GET /promo_video/{event_id}` (app.py lines 589-614). -/
def get_promo_video (event_id : List Char) (s : AppState) :
    Except Err (List MediaMeta) × AppState :=
  match validate_object_id event_id with
  | .error e => (.error e, s)
  | .ok oid =>
    let videos := findByOwnerNewest s.promo_videos oid
    if videos.isEmpty then (.error .notFound, s)
    else (.ok (videos.map videoMeta), s)

/-- `GET /venue_photo/{venue_id}` (app.py lines 639-664). -/
def get_venue_photo (venue_id : List Char) (s : AppState) :
    Except Err (List MediaMeta) × AppState :=
  match validate_object_id venue_id with
  | .error e => (.error e, s)
  | .ok oid =>
    let photos := findByOwnerNewest s.venue_photos oid
    if photos.isEmpty then (.error .notFound, s)
    else (.ok (photos.map photoMeta), s)

/-- The streamed download response: the stored bytes with the stored
content type and the stored filename in the attachment header. -/
structure DownloadResp where
  content : List Nat
  content_type : Option (List Char)
  filename : List Char
deriving DecidableEq, Repr

/-- `GET /media/poster/{poster_id}` (app.py lines 666-682). -/
def download_event_poster (poster_id : List Char) (s : AppState) :
    Except Err DownloadResp × AppState :=
  match validate_object_id poster_id with
  | .error e => (.error e, s)
  | .ok oid =>
    match lookupId s.event_posters oid with
    | some d => (.ok ⟨d.content, d.content_type, d.filename⟩, s)
    | none => (.error .notFound, s)

/-- `GET /media/video/{video_id}` (app.py lines 684-700). -/
def download_promo_video (video_id : List Char) (s : AppState) :
    Except Err DownloadResp × AppState :=
  match validate_object_id video_id with
  | .error e => (.error e, s)
  | .ok oid =>
    match lookupId s.promo_videos oid with
    | some d => (.ok ⟨d.content, d.content_type, d.filename⟩, s)
    | none => (.error .notFound, s)

/-- `GET /media/photo/{photo_id}` (app.py lines 702-718). -/
def download_venue_photo (photo_id : List Char) (s : AppState) :
    Except Err DownloadResp × AppState :=
  match validate_object_id photo_id with
  | .error e => (.error e, s)
  | .ok oid =>
    match lookupId s.venue_photos oid with
    | some d => (.ok ⟨d.content, d.content_type, d.filename⟩, s)
    | none => (.error .notFound, s)

/-! ## Lemmas about `sanitize_filename` -/

/-- Absence of two consecutive dots, the `".."` substring. -/
def noDD : List Char → Bool
  | [] => true
  | [_] => true
  | a :: b :: rest => !(a == '.' && b == '.') && noDD (b :: rest)

theorem replaceDotDot_cons_ne {b : Char} (rest : List Char) (hb : (b == '.') = false) :
    replaceDotDot (b :: rest) = b :: replaceDotDot rest := by
  cases rest with
  | nil => rfl
  | cons r0 rest' =>
    simp only [replaceDotDot, hb, Bool.false_and, Bool.false_eq_true, if_false]

theorem noDD_cons_of_ne {a : Char} (x : List Char) (ha : (a == '.') = false)
    (hx : noDD x = true) : noDD (a :: x) = true := by
  cases x with
  | nil => rfl
  | cons c t => simp only [noDD, ha, Bool.false_and, Bool.not_false, Bool.true_and]; exact hx

theorem noDD_replaceDotDot : ∀ l : List Char, noDD (replaceDotDot l) = true
  | [] => rfl
  | [_] => rfl
  | a :: b :: rest => by
    by_cases hab : (a == '.' && b == '.') = true
    · simp only [replaceDotDot, hab, if_true]
      exact noDD_replaceDotDot rest
    · rw [replaceDotDot, if_neg hab]
      by_cases hb : (b == '.') = true
      · have ha : (a == '.') = false := by
          cases haa : (a == '.') with
          | false => rfl
          | true => exact absurd (by rw [haa, hb]; rfl) hab
        exact noDD_cons_of_ne _ ha (noDD_replaceDotDot (b :: rest))
      · rw [Bool.not_eq_true] at hb
        rw [replaceDotDot_cons_ne rest hb]
        have h2 : noDD (b :: replaceDotDot rest) = true := by
          rw [← replaceDotDot_cons_ne rest hb]
          exact noDD_replaceDotDot (b :: rest)
        cases hrr : replaceDotDot rest with
        | nil => simp [noDD, hb]
        | cons c t =>
          rw [hrr] at h2
          simp only [noDD, Bool.and_eq_true] at h2 ⊢
          exact ⟨by simp [hb], h2⟩

theorem replaceDotDot_of_noDD : ∀ l : List Char, noDD l = true → replaceDotDot l = l
  | [], _ => rfl
  | [_], _ => rfl
  | a :: b :: rest, h => by
    simp only [noDD, Bool.and_eq_true, Bool.not_eq_true'] at h
    rw [replaceDotDot, if_neg (by rw [h.1]; exact Bool.false_ne_true)]
    rw [replaceDotDot_of_noDD (b :: rest) h.2]

theorem noDD_take : ∀ (n : Nat) (l : List Char), noDD l = true → noDD (l.take n) = true
  | 0, _, _ => rfl
  | _ + 1, [], _ => rfl
  | _ + 1, [c], _ => by simp [noDD]
  | n + 1, a :: b :: rest, h => by
    simp only [noDD, Bool.and_eq_true] at h
    cases n with
    | zero => rfl
    | succ m =>
      show noDD (a :: (b :: rest).take (m + 1)) = true
      have ht := noDD_take (m + 1) (b :: rest) h.2
      simp only [List.take_cons] at ht ⊢
      simp only [noDD, Bool.and_eq_true]
      exact ⟨h.1, ht⟩

theorem mem_replaceDotDot : ∀ (l : List Char) (c : Char), c ∈ replaceDotDot l → c ∈ l
  | [], _, h => by simp [replaceDotDot] at h
  | [_], _, h => h
  | a :: b :: rest, c, h => by
    by_cases hab : (a == '.' && b == '.') = true
    · rw [replaceDotDot, if_pos hab] at h
      exact List.mem_cons_of_mem _ (List.mem_cons_of_mem _ (mem_replaceDotDot rest c h))
    · rw [replaceDotDot, if_neg hab] at h
      rcases List.mem_cons.mp h with h1 | h2
      · exact h1 ▸ List.mem_cons_self _ _
      · exact List.mem_cons_of_mem _ (mem_replaceDotDot (b :: rest) c h2)

theorem splitOnSlash_no_slash :
    ∀ l : List Char, (∀ c ∈ l, (c == '/') = false) → splitOnSlash l = [l]
  | [], _ => rfl
  | c :: rest, h => by
    rw [splitOnSlash, if_neg (by rw [h c (List.mem_cons_self ..)]; exact Bool.false_ne_true)]
    rw [splitOnSlash_no_slash rest (fun x hx => h x (List.mem_cons_of_mem _ hx))]

theorem pathName_no_slash (l : List Char) (h : ∀ c ∈ l, (c == '/') = false)
    (hne : l ≠ []) (hnd : (l == ['.']) = false) : pathName l = l := by
  rw [pathName, splitOnSlash_no_slash l h]
  have h1 : l.isEmpty = false := by
    cases l with
    | nil => exact absurd rfl hne
    | cons a t => rfl
  simp only [List.filter, h1, hnd, Bool.not_false, Bool.and_self, List.getLast?_singleton,
    Option.getD_some]

/-- The sanitized filename is nonempty, at most 255 characters, free of
dangerous characters (in particular `'/'`) and of `".."` sequences. -/
theorem sanitize_filename_spec (l : List Char) :
    sanitize_filename l ≠ [] ∧ (sanitize_filename l).length ≤ 255 ∧
    (∀ c ∈ sanitize_filename l, isDangerous c = false) ∧
    noDD (sanitize_filename l) = true := by
  rw [sanitize_filename]
  set f2 := (pathName l).filter (fun c => !(isDangerous c)) with hf2
  set f3 := replaceDotDot f2 with hf3
  set f4 := (if f3.isEmpty then "file".data else f3) with hf4
  have hne : f4 ≠ [] := by
    rw [hf4]
    split
    · decide
    · next hempty => exact fun hh => hempty (by rw [hh]; rfl)
  have hdang : ∀ c ∈ f4, isDangerous c = false := by
    intro c hc
    rw [hf4] at hc
    split at hc
    · revert hc; revert c; decide
    · have := List.mem_filter.mp (mem_replaceDotDot f2 c hc)
      simpa using this.2
  have hDD : noDD f4 = true := by
    rw [hf4]
    split
    · decide
    · exact noDD_replaceDotDot f2
  refine ⟨?_, ?_, ?_, ?_⟩
  · intro hnil
    have hlen0 : (f4.take 255).length = 0 := by rw [hnil]; rfl
    rw [List.length_take] at hlen0
    rcases Nat.min_eq_zero_iff.mp hlen0 with h255 | hlen
    · exact absurd h255 (by decide)
    · exact hne (List.eq_nil_of_length_eq_zero hlen)
  · rw [List.length_take]; exact Nat.min_le_left _ _
  · intro c hc; exact hdang c (List.take_subset _ _ hc)
  · exact noDD_take 255 f4 hDD

/-- A list that is nonempty, not the bare dot, free of dangerous
characters and of `".."`, and short enough, passes through
`sanitize_filename` unchanged. -/
theorem sanitize_filename_fixpoint (r : List Char) (hne : r ≠ []) (hnd : r ≠ ['.'])
    (hdang : ∀ c ∈ r, isDangerous c = false) (hDD : noDD r = true)
    (hlen : r.length ≤ 255) : sanitize_filename r = r := by
  have hslash : ∀ c ∈ r, (c == '/') = false := by
    intro c hc
    cases h : (c == '/') with
    | false => rfl
    | true =>
      have hcd := hdang c hc
      rw [eq_of_beq h] at hcd
      simp [isDangerous] at hcd
  have hndb : (r == ['.']) = false := by
    cases h : (r == ['.']) with
    | false => rfl
    | true => exact absurd (eq_of_beq h) hnd
  rw [sanitize_filename, pathName_no_slash r hslash hne hndb,
    List.filter_eq_self.mpr (fun c hc => by rw [hdang c hc]; rfl),
    replaceDotDot_of_noDD r hDD]
  have hempty : r.isEmpty = false := by
    cases r with
    | nil => exact absurd rfl hne
    | cons a t => rfl
  rw [hempty]
  simpa using List.take_of_length_le hlen

/-- Claim C4 (amended): `sanitize_filename` is idempotent on every
input whose sanitized form is not the bare dot `"."` (on those the
second pass yields `"file"`), and the traversal input
`"../../etc/passwd"` sanitizes to the bare name `"passwd"`. -/
theorem sanitize_filename_idempotent_unless_dot :
    (∀ l : List Char, sanitize_filename l ≠ ['.'] →
      sanitize_filename (sanitize_filename l) = sanitize_filename l)
    ∧ sanitize_filename "../../etc/passwd".data = "passwd".data := by
  refine ⟨fun l hdot => ?_, by decide⟩
  obtain ⟨hne, hlen, hdang, hDD⟩ := sanitize_filename_spec l
  exact sanitize_filename_fixpoint _ hne hdot hdang hDD hlen

/-- Witness for C4: a concrete filename whose sanitized form is not
`"."`, where idempotence holds. -/
theorem sanitize_filename_idempotent_unless_dot_witness :
    sanitize_filename "report.pdf".data ≠ ['.'] ∧
    sanitize_filename (sanitize_filename "report.pdf".data) =
      sanitize_filename "report.pdf".data :=
  ⟨by decide, sanitize_filename_idempotent_unless_dot.1 "report.pdf".data (by decide)⟩

/-- Counterexample to C4 as stated: `sanitize_filename` is not
idempotent.  `sanitize_filename "..." = "."` (`Path("...").name` is
`"..."`, and removing the single `".."` occurrence leaves `"."`), but
`sanitize_filename "." = "file"` because `Path(".").name` is the empty
string. -/
theorem sanitize_filename_not_idempotent :
    sanitize_filename (sanitize_filename "...".data) ≠ sanitize_filename "...".data := by
  decide

/-- Claim C5: every sanitized filename is nonempty, at most 255
characters, contains no dangerous character (hence no `'/'`, i.e. no
directory component) and no literal `".."` sequence; the empty input
yields the placeholder `"file"`. -/
theorem sanitize_filename_output_safe :
    (∀ l : List Char,
      sanitize_filename l ≠ [] ∧ (sanitize_filename l).length ≤ 255 ∧
      (∀ c ∈ sanitize_filename l, isDangerous c = false) ∧
      (∀ c ∈ sanitize_filename l, (c == '/') = false) ∧
      noDD (sanitize_filename l) = true)
    ∧ sanitize_filename [] = "file".data := by
  refine ⟨fun l => ?_, by decide⟩
  obtain ⟨h1, h2, h3, h4⟩ := sanitize_filename_spec l
  refine ⟨h1, h2, h3, fun c hc => ?_, h4⟩
  cases h : (c == '/') with
  | false => rfl
  | true =>
    have hcd := h3 c hc
    rw [eq_of_beq h] at hcd
    simp [isDangerous] at hcd

/-! ## Lemmas about `sanitize_string` -/

/-- Both ends of a list are free of Python whitespace. -/
def isTrimmed (l : List Char) : Bool :=
  (match l.head? with | none => true | some c => !(pyIsSpace c)) &&
  (match l.getLast? with | none => true | some c => !(pyIsSpace c))

theorem dropWhile_head_false (p : Char → Bool) :
    ∀ (l : List Char) {c : Char} {t : List Char}, l.dropWhile p = c :: t → p c = false
  | [], _, _, h => by simp at h
  | a :: rest, c, t, h => by
    by_cases hpa : p a = true
    · rw [List.dropWhile_cons, if_pos hpa] at h
      exact dropWhile_head_false p rest h
    · rw [List.dropWhile_cons, if_neg hpa] at h
      cases h
      simpa using hpa

theorem getLast?_dropWhile_of_ne_nil (p : Char → Bool) :
    ∀ (l : List Char), l.dropWhile p ≠ [] → (l.dropWhile p).getLast? = l.getLast?
  | [], h => absurd rfl h
  | a :: rest, h => by
    by_cases hpa : p a = true
    · rw [List.dropWhile_cons, if_pos hpa] at h ⊢
      rw [getLast?_dropWhile_of_ne_nil p rest h]
      cases rest with
      | nil => exact absurd rfl h
      | cons b t => rw [List.getLast?_cons_cons]
    · rw [List.dropWhile_cons, if_neg hpa]

theorem mem_pyStrip {c : Char} {l : List Char} (h : c ∈ pyStrip l) : c ∈ l := by
  rw [pyStrip, List.mem_reverse] at h
  have h2 := List.dropWhile_subset pyIsSpace h
  rw [List.mem_reverse] at h2
  exact List.dropWhile_subset pyIsSpace h2

theorem length_pyStrip_le (l : List Char) : (pyStrip l).length ≤ l.length := by
  rw [pyStrip, List.length_reverse]
  calc ((l.dropWhile pyIsSpace).reverse.dropWhile pyIsSpace).length
      ≤ (l.dropWhile pyIsSpace).reverse.length :=
        (List.dropWhile_sublist pyIsSpace).length_le
    _ = (l.dropWhile pyIsSpace).length := List.length_reverse _
    _ ≤ l.length := (List.dropWhile_sublist pyIsSpace).length_le

theorem isTrimmed_pyStrip (l : List Char) : isTrimmed (pyStrip l) = true := by
  rw [pyStrip]
  cases hww : (l.dropWhile pyIsSpace).reverse.dropWhile pyIsSpace with
  | nil => rfl
  | cons c t =>
    rw [isTrimmed, List.head?_reverse, List.getLast?_reverse]
    have hWne : (l.dropWhile pyIsSpace).reverse.dropWhile pyIsSpace ≠ [] := by
      rw [hww]; exact List.cons_ne_nil _ _
    have hlast : (c :: t).getLast? = (l.dropWhile pyIsSpace).head? := by
      have h1 := getLast?_dropWhile_of_ne_nil pyIsSpace (l.dropWhile pyIsSpace).reverse hWne
      rw [hww] at h1
      rw [h1, List.getLast?_reverse]
    have hc : pyIsSpace c = false := dropWhile_head_false pyIsSpace _ hww
    rw [hlast]
    cases hd1 : l.dropWhile pyIsSpace with
    | nil =>
      rw [hd1] at hww
      simp at hww
    | cons c0 t0 =>
      have hc0 : pyIsSpace c0 = false := dropWhile_head_false pyIsSpace l hd1
      simp only [List.head?_cons, hc, hc0, Bool.not_false, Bool.and_self]

/-- Modelled from the spec: "strip control characters (notably null
bytes)" — removal of all Unicode control characters (categories
`Cc`: U+0000–U+001F and U+007F–U+009F), used only to compare the
spec's wording with what `sanitize_string` actually does. -/
def removeControlChars (l : List Char) : List Char :=
  l.filter (fun c => !(c.toNat < 0x20 || (0x7f ≤ c.toNat && c.toNat ≤ 0x9f)))

/-- Claim C2 (amended): `sanitize_string` removes null bytes only (not
all control characters), fails with `FieldTooLong` exactly when more
than 5000 characters remain after null-byte removal, and otherwise
returns the null-free value with surrounding whitespace trimmed; the
returned value never contains a null byte, never grows, and carries no
leading or trailing whitespace. -/
theorem sanitize_string_spec :
    ∀ l : List Char,
      (sanitize_string l = .error .fieldTooLong ↔ 5000 < (removeNull l).length) ∧
      (sanitize_string l = .ok (pyStrip (removeNull l)) ↔ (removeNull l).length ≤ 5000) ∧
      ((pyStrip (removeNull l)).all (fun c => !(c == '\x00')) = true) ∧
      (pyStrip (removeNull l)).length ≤ (removeNull l).length ∧
      isTrimmed (pyStrip (removeNull l)) = true := by
  intro l
  refine ⟨?_, ?_, ?_, length_pyStrip_le _, isTrimmed_pyStrip _⟩
  · rw [sanitize_string]
    by_cases h : 5000 < (removeNull l).length
    · rw [if_pos h]; exact iff_of_true rfl h
    · rw [if_neg h]
      exact iff_of_false (fun hcontra => by cases hcontra) h
  · rw [sanitize_string]
    by_cases h : 5000 < (removeNull l).length
    · rw [if_pos h]
      exact iff_of_false (fun hcontra => by cases hcontra) (by omega)
    · rw [if_neg h]
      exact iff_of_true rfl (by omega)
  · rw [List.all_eq_true]
    intro c hc
    have := List.mem_filter.mp (mem_pyStrip hc)
    exact this.2

/-- Counterexample to C2 as stated: on the input `"a\x01b"` (length 3,
well under the ceiling) the claim promises the control character
`'\x01'` is stripped, i.e. the result `"ab"`, but `sanitize_string`
only removes null bytes and returns `"a\x01b"` unchanged. -/
theorem sanitize_string_keeps_control_chars :
    sanitize_string "a\x01b".data = .ok "a\x01b".data ∧
    pyStrip (removeControlChars "a\x01b".data) = "ab".data ∧
    "a\x01b".data ≠ "ab".data := by
  refine ⟨by decide, by decide, by decide⟩

/-! ## Lemmas about the email and phone validators -/

/-- Modelled from the spec: the `local-part@domain.tld` shape —
nonempty local part over `[a-zA-Z0-9._%+-]`, a domain with at least
one dot, and a 2+ letter top-level segment. -/
def DomShape (l : List Char) : Prop :=
  ∃ d t, l = d ++ '.' :: t ∧ d ≠ [] ∧ (∀ c ∈ d, domainChar c = true) ∧
    2 ≤ t.length ∧ (∀ c ∈ t, isAsciiAlpha c = true)

/-- Modelled from the spec: full email shape `local-part@domain.tld`. -/
def EmailShape (l : List Char) : Prop :=
  ∃ lo rest, l = lo ++ '@' :: rest ∧ lo ≠ [] ∧
    (∀ c ∈ lo, emailLocalChar c = true) ∧ DomShape rest

/-- Modelled from the spec: at least 7 characters drawn from digits,
`+`, `-`, space and parentheses. -/
def PhoneShape (l : List Char) : Prop :=
  7 ≤ l.length ∧ ∀ c ∈ l, phoneChar c = true

theorem takeWhile_append_of_all (q : Char → Bool) :
    ∀ (a : List Char) (b : Char) (rest : List Char),
      (∀ c ∈ a, q c = true) → q b = false →
      (a ++ b :: rest).takeWhile q = a
  | [], b, rest, _, hb => by simp [List.takeWhile_cons, hb]
  | x :: a', b, rest, ha, hb => by
    rw [List.cons_append, List.takeWhile_cons, ha x (List.mem_cons_self ..)]
    rw [if_pos rfl,
      takeWhile_append_of_all q a' b rest (fun c hc => ha c (List.mem_cons_of_mem _ hc)) hb]

theorem dropWhile_append_of_all (q : Char → Bool) :
    ∀ (a : List Char) (b : Char) (rest : List Char),
      (∀ c ∈ a, q c = true) → q b = false →
      (a ++ b :: rest).dropWhile q = b :: rest
  | [], b, rest, _, hb => by simp [List.dropWhile_cons, hb]
  | x :: a', b, rest, ha, hb => by
    rw [List.cons_append, List.dropWhile_cons, ha x (List.mem_cons_self ..)]
    rw [if_pos rfl,
      dropWhile_append_of_all q a' b rest (fun c hc => ha c (List.mem_cons_of_mem _ hc)) hb]

theorem alpha_ne_dot {c : Char} (h : isAsciiAlpha c = true) : (c == '.') = false := by
  cases hc : (c == '.') with
  | false => rfl
  | true => rw [eq_of_beq hc] at h; cases h

theorem matchDomain_iff (l : List Char) : matchDomain l = true ↔ DomShape l := by
  constructor
  · intro h
    rw [matchDomain] at h
    cases hdrop : l.reverse.dropWhile (fun c => !(c == '.')) with
    | nil => rw [hdrop] at h; cases h
    | cons x dRev =>
      rw [hdrop] at h
      simp only [Bool.and_eq_true] at h
      obtain ⟨⟨⟨⟨hx, htlen⟩, htall⟩, hdne⟩, hdall⟩ := h
      have hx' : x = '.' := eq_of_beq hx
      subst hx'
      refine ⟨dRev.reverse, (l.reverse.takeWhile (fun c => !(c == '.'))).reverse,
        ?_, ?_, ?_, ?_, ?_⟩
      · have hsplit := List.takeWhile_append_dropWhile (fun c => !(c == '.')) l.reverse
        rw [hdrop] at hsplit
        calc l = l.reverse.reverse := (List.reverse_reverse l).symm
          _ = (l.reverse.takeWhile (fun c => !(c == '.')) ++ '.' :: dRev).reverse := by
              rw [hsplit]
          _ = dRev.reverse ++
              '.' :: (l.reverse.takeWhile (fun c => !(c == '.'))).reverse := by
              rw [List.reverse_append, List.reverse_cons, List.append_assoc,
                List.singleton_append]
      · intro hnil
        rw [List.reverse_eq_nil_iff] at hnil
        rw [hnil] at hdne
        cases hdne
      · intro c hc
        rw [List.mem_reverse] at hc
        exact List.all_eq_true.mp hdall c hc
      · rw [decide_eq_true_iff] at htlen; exact htlen
      · intro c hc
        exact List.all_eq_true.mp htall c hc
  · rintro ⟨d, t, heq, hdne, hdall, htlen, htall⟩
    have hq : ∀ c ∈ t.reverse, (fun c => !(c == '.')) c = true := by
      intro c hc
      rw [List.mem_reverse] at hc
      simp only [alpha_ne_dot (htall c hc), Bool.not_false]
    have hqdot : (fun c => !(c == '.')) '.' = false := by decide
    have hrev : l.reverse = t.reverse ++ '.' :: d.reverse := by
      rw [heq, List.reverse_append, List.reverse_cons, List.append_assoc,
        List.singleton_append]
    rw [matchDomain, hrev, dropWhile_append_of_all _ _ _ _ hq hqdot,
      takeWhile_append_of_all _ _ _ _ hq hqdot]
    simp only [List.reverse_reverse, Bool.and_eq_true, List.all_eq_true]
    refine ⟨⟨⟨⟨rfl, by rw [decide_eq_true_iff]; exact htlen⟩, fun c hc => htall c hc⟩, ?_⟩,
      fun c hc => hdall c (List.mem_reverse.mp hc)⟩
    cases hd : d.reverse with
    | nil => exact absurd (List.reverse_eq_nil_iff.mp hd) hdne
    | cons a b => rfl

theorem goLocal_iff : ∀ l : List Char,
    goLocal l = true ↔
      ∃ lo rest, l = lo ++ '@' :: rest ∧ (∀ c ∈ lo, emailLocalChar c = true) ∧ DomShape rest
  | [] => by
    constructor
    · intro h; cases h
    · rintro ⟨lo, rest, heq, -, -⟩
      cases lo <;> simp at heq
  | c :: rest₀ => by
    by_cases hc : (c == '@') = true
    · rw [goLocal, if_pos hc]
      constructor
      · intro h
        refine ⟨[], rest₀, ?_, ?_, (matchDomain_iff rest₀).mp h⟩
        · rw [List.nil_append, eq_of_beq hc]
        · intro x hx; cases hx
      · rintro ⟨lo, rest, heq, hloc, hdom⟩
        cases lo with
        | nil =>
          rw [List.nil_append] at heq
          cases heq
          exact (matchDomain_iff _).mpr hdom
        | cons x lo' =>
          rw [List.cons_append] at heq
          injection heq with h1 h2
          subst h1
          have hxl := hloc c (List.mem_cons_self ..)
          rw [eq_of_beq hc] at hxl
          cases hxl
    · rw [goLocal, if_neg hc]
      constructor
      · intro h
        rw [Bool.and_eq_true] at h
        obtain ⟨lo', rest, heq, hloc, hdom⟩ := (goLocal_iff rest₀).mp h.2
        refine ⟨c :: lo', rest, ?_, ?_, hdom⟩
        · rw [List.cons_append, heq]
        · intro x hx
          rcases List.mem_cons.mp hx with h1 | h2
          · rw [h1]; exact h.1
          · exact hloc x h2
      · rintro ⟨lo, rest, heq, hloc, hdom⟩
        cases lo with
        | nil =>
          rw [List.nil_append] at heq
          injection heq with h1 h2
          rw [h1] at hc
          exact absurd (by rfl) hc
        | cons x lo' =>
          rw [List.cons_append] at heq
          injection heq with h1 h2
          subst h1
          rw [Bool.and_eq_true]
          refine ⟨hloc c (List.mem_cons_self ..), (goLocal_iff rest₀).mpr
            ⟨lo', rest, h2, fun x hx => hloc x (List.mem_cons_of_mem _ hx), hdom⟩⟩

theorem matchEmail_iff (l : List Char) : matchEmail l = true ↔ EmailShape l := by
  cases l with
  | nil =>
    constructor
    · intro h; cases h
    · rintro ⟨lo, rest, heq, -, -, -⟩
      cases lo <;> simp at heq
  | cons c rest₀ =>
    rw [matchEmail, Bool.and_eq_true]
    constructor
    · rintro ⟨h1, h2⟩
      obtain ⟨lo', rest, heq, hloc, hdom⟩ := (goLocal_iff rest₀).mp h2
      refine ⟨c :: lo', rest, by rw [List.cons_append, heq], List.cons_ne_nil _ _, ?_, hdom⟩
      intro x hx
      rcases List.mem_cons.mp hx with hx1 | hx2
      · rw [hx1]; exact h1
      · exact hloc x hx2
    · rintro ⟨lo, rest, heq, hlone, hloc, hdom⟩
      cases lo with
      | nil => exact absurd rfl hlone
      | cons x lo' =>
        rw [List.cons_append] at heq
        injection heq with heq1 heq2
        subst heq1
        exact ⟨hloc c (List.mem_cons_self ..),
          (goLocal_iff rest₀).mpr ⟨lo', rest, heq2,
            fun y hy => hloc y (List.mem_cons_of_mem _ hy), hdom⟩⟩

theorem matchPhone_iff (l : List Char) : matchPhone l = true ↔ PhoneShape l := by
  rw [matchPhone, PhoneShape, Bool.and_eq_true, decide_eq_true_iff, List.all_eq_true]

/-- Claim C7 (amended): the validators first sanitize (null-byte
removal, whitespace trim, 5000-character ceiling); email validation
then accepts exactly the inputs whose sanitized form matches the
`local-part@domain.tld` shape, and phone validation exactly those
whose sanitized form is ≥7 characters over digits, `+`, `-`, space and
parentheses.  The concrete vectors behave as the spec states:
`"not-an-email"` rejected, `"a@b.co"` accepted, `"123"` rejected,
`"+1 (555) 123-4567"` accepted. -/
theorem email_phone_validation_spec :
    (∀ l : List Char,
      (∃ r, validate_email l = .ok r) ↔ ∃ v, sanitize_string l = .ok v ∧ EmailShape v) ∧
    (∀ l : List Char,
      (∃ r, validate_phone (some l) = .ok r) ↔
        ∃ v, sanitize_string l = .ok v ∧ PhoneShape v) ∧
    validate_email "not-an-email".data = .error .invalidFormat ∧
    validate_email "a@b.co".data = .ok "a@b.co".data ∧
    validate_phone (some "123".data) = .error .invalidFormat ∧
    validate_phone (some "+1 (555) 123-4567".data) = .ok (some "+1 (555) 123-4567".data) := by
  refine ⟨?_, ?_, by decide, by decide, by decide, by decide⟩
  · intro l
    cases h : sanitize_string l with
    | error e =>
      constructor
      · rintro ⟨r, hr⟩
        simp [validate_email, h] at hr
      · rintro ⟨v, hv, -⟩
        cases hv
    | ok v =>
      by_cases hm : matchEmail v = true
      · exact iff_of_true ⟨v, by simp [validate_email, h, hm]⟩
          ⟨v, rfl, (matchEmail_iff v).mp hm⟩
      · constructor
        · rintro ⟨r, hr⟩
          simp [validate_email, h, hm] at hr
        · rintro ⟨v', hv', hshape⟩
          injection hv' with hvv
          rw [← hvv] at hshape
          exact absurd ((matchEmail_iff v).mpr hshape) hm
  · intro l
    cases h : sanitize_string l with
    | error e =>
      constructor
      · rintro ⟨r, hr⟩
        simp [validate_phone, h] at hr
      · rintro ⟨v, hv, -⟩
        cases hv
    | ok v =>
      by_cases hm : matchPhone v = true
      · exact iff_of_true ⟨some v, by simp [validate_phone, h, hm]⟩
          ⟨v, rfl, (matchPhone_iff v).mp hm⟩
      · constructor
        · rintro ⟨r, hr⟩
          simp [validate_phone, h, hm] at hr
        · rintro ⟨v', hv', hshape⟩
          injection hv' with hvv
          rw [← hvv] at hshape
          exact absurd ((matchPhone_iff v).mpr hshape) hm

/-- Counterexample to C7 as stated: email validation does not accept
exactly the shape-matching strings — the input `" a@b.co "` is
accepted (the validator trims it first) although it does not itself
match the `local-part@domain.tld` shape (its first character is a
space, not a local-part character). -/
theorem email_validation_accepts_non_shaped_input :
    validate_email " a@b.co ".data = .ok "a@b.co".data ∧
    ¬ EmailShape " a@b.co ".data := by
  refine ⟨by decide, fun h => ?_⟩
  exact absurd ((matchEmail_iff _).mpr h) (by decide)

/-- Witness for C5 at a concrete input containing traversal and
dangerous characters. -/
theorem sanitize_filename_output_safe_witness :
    sanitize_filename "../a<b>.txt".data ≠ [] ∧
    (sanitize_filename "../a<b>.txt".data).length ≤ 255 ∧
    isDangerous 'a' = false ∧
    noDD (sanitize_filename "../a<b>.txt".data) = true :=
  ⟨(sanitize_filename_output_safe.1 "../a<b>.txt".data).1,
   (sanitize_filename_output_safe.1 "../a<b>.txt".data).2.1,
   (sanitize_filename_output_safe.1 "../a<b>.txt".data).2.2.1 'a' (by decide),
   (sanitize_filename_output_safe.1 "../a<b>.txt".data).2.2.2.2⟩

/-! ## Lemmas about the collection primitives -/

theorem lookupId_setById_self {α : Type} (coll : List (List Char × α)) (oid : List Char)
    (f : α → α) : lookupId (setById coll oid f) oid = (lookupId coll oid).map f := by
  induction coll with
  | nil => rfl
  | cons p rest ih =>
    by_cases hp : (p.1 == oid) = true
    · rw [setById, if_pos hp, lookupId, if_pos hp, lookupId, if_pos hp]
      rfl
    · rw [setById, if_neg hp, lookupId, if_neg hp, lookupId, if_neg hp]
      exact ih

theorem lookupId_setById_ne {α : Type} (coll : List (List Char × α)) (oid oid2 : List Char)
    (f : α → α) (hne : oid2 ≠ oid) :
    lookupId (setById coll oid f) oid2 = lookupId coll oid2 := by
  induction coll with
  | nil => rfl
  | cons p rest ih =>
    by_cases hp : (p.1 == oid) = true
    · have hp2 : ¬(p.1 == oid2) = true := by
        intro h2
        exact hne (by rw [← eq_of_beq hp, eq_of_beq h2])
      rw [setById, if_pos hp, lookupId, if_neg hp2, lookupId, if_neg hp2]
      exact ih
    · rw [setById, if_neg hp]
      by_cases hp2 : (p.1 == oid2) = true
      · rw [lookupId, if_pos hp2, lookupId, if_pos hp2]
      · rw [lookupId, if_neg hp2, lookupId, if_neg hp2]
        exact ih

theorem keys_setById {α : Type} (coll : List (List Char × α)) (oid : List Char) (f : α → α) :
    (setById coll oid f).map Prod.fst = coll.map Prod.fst := by
  induction coll with
  | nil => rfl
  | cons p rest ih =>
    rw [setById, List.map_cons, List.map_cons, ih]
    by_cases hp : (p.1 == oid) = true
    · rw [if_pos hp]
    · rw [if_neg hp]

theorem matchedCount_true_of_lookup {α : Type} (coll : List (List Char × α))
    (oid : List Char) (d : α) (h : lookupId coll oid = some d) :
    matchedCount coll oid = true := by
  induction coll with
  | nil => cases h
  | cons p rest ih =>
    by_cases hp : (p.1 == oid) = true
    · rw [matchedCount, if_pos hp]
    · rw [lookupId, if_neg hp] at h
      rw [matchedCount, if_neg hp]
      exact ih h

theorem matchedCount_false_of_lookup {α : Type} (coll : List (List Char × α))
    (oid : List Char) (h : lookupId coll oid = none) :
    matchedCount coll oid = false := by
  induction coll with
  | nil => rfl
  | cons p rest ih =>
    by_cases hp : (p.1 == oid) = true
    · rw [lookupId, if_pos hp] at h
      cases h
    · rw [lookupId, if_neg hp] at h
      rw [matchedCount, if_neg hp]
      exact ih h

/-! ## Claims about identifier handling and read-only endpoints -/

/-- Claim C6: for every malformed identifier string, every ID-taking
endpoint returns `InvalidIdentifier` with the store state unchanged —
the identifier translation happens before any store access and has no
other side effect. -/
theorem invalid_id_rejected_before_store :
    ∀ idStr : List Char, isValidOIdStr idStr = false →
      ∀ s : AppState,
        get_event idStr s = (.error .invalidId, s) ∧
        get_attendee idStr s = (.error .invalidId, s) ∧
        get_venue idStr s = (.error .invalidId, s) ∧
        get_booking idStr s = (.error .invalidId, s) ∧
        delete_event idStr s = (.error .invalidId, s) ∧
        delete_attendee idStr s = (.error .invalidId, s) ∧
        delete_venue idStr s = (.error .invalidId, s) ∧
        delete_booking idStr s = (.error .invalidId, s) ∧
        (∀ e : Event, update_event idStr e s = (.error .invalidId, s)) ∧
        (∀ a : Attendee, update_attendee idStr a s = (.error .invalidId, s)) ∧
        (∀ v : Venue, update_venue idStr v s = (.error .invalidId, s)) ∧
        (∀ b : Booking, update_booking idStr b s = (.error .invalidId, s)) ∧
        (∀ fn ct content now,
          upload_event_poster idStr fn ct content now s = (.error .invalidId, s)) ∧
        (∀ fn ct content now,
          upload_promo_video idStr fn ct content now s = (.error .invalidId, s)) ∧
        (∀ fn ct content now,
          upload_venue_photo idStr fn ct content now s = (.error .invalidId, s)) ∧
        get_event_poster idStr s = (.error .invalidId, s) ∧
        get_promo_video idStr s = (.error .invalidId, s) ∧
        get_venue_photo idStr s = (.error .invalidId, s) ∧
        download_event_poster idStr s = (.error .invalidId, s) ∧
        download_promo_video idStr s = (.error .invalidId, s) ∧
        download_venue_photo idStr s = (.error .invalidId, s) := by
  intro idStr hbad s
  have hv : validate_object_id idStr = .error .invalidId := by
    rw [validate_object_id, if_neg (fun h => by rw [h] at hbad; cases hbad)]
  exact ⟨by simp [get_event, hv], by simp [get_attendee, hv], by simp [get_venue, hv],
    by simp [get_booking, hv], by simp [delete_event, hv], by simp [delete_attendee, hv],
    by simp [delete_venue, hv], by simp [delete_booking, hv],
    by intro e; simp [update_event, hv], by intro a; simp [update_attendee, hv],
    by intro v; simp [update_venue, hv], by intro b; simp [update_booking, hv],
    by intro fn ct content now; simp [upload_event_poster, hv],
    by intro fn ct content now; simp [upload_promo_video, hv],
    by intro fn ct content now; simp [upload_venue_photo, hv],
    by simp [get_event_poster, hv], by simp [get_promo_video, hv],
    by simp [get_venue_photo, hv], by simp [download_event_poster, hv],
    by simp [download_promo_video, hv], by simp [download_venue_photo, hv]⟩

/-- Witness for C6 at the malformed identifier `"not-a-valid-id"`. -/
theorem invalid_id_rejected_before_store_witness :
    isValidOIdStr "not-a-valid-id".data = false ∧
    delete_event "not-a-valid-id".data emptyState = (.error .invalidId, emptyState) ∧
    get_event "not-a-valid-id".data emptyState = (.error .invalidId, emptyState) :=
  ⟨by decide,
   (invalid_id_rejected_before_store "not-a-valid-id".data (by decide)
     emptyState).2.2.2.2.1,
   (invalid_id_rejected_before_store "not-a-valid-id".data (by decide) emptyState).1⟩

/-- Claim C10: every read-only endpoint — the list-alls, the
get-by-ids, the media list-for-owner handlers and the media
download-by-id handlers — returns the store state unchanged on every
input, whether it succeeds or fails. -/
theorem readonly_endpoints_preserve_state :
    ∀ (s : AppState) (idStr : List Char),
      (get_events s).2 = s ∧ (get_attendees s).2 = s ∧ (get_venues s).2 = s ∧
      (get_bookings s).2 = s ∧
      (get_event idStr s).2 = s ∧ (get_attendee idStr s).2 = s ∧
      (get_venue idStr s).2 = s ∧ (get_booking idStr s).2 = s ∧
      (get_event_poster idStr s).2 = s ∧ (get_promo_video idStr s).2 = s ∧
      (get_venue_photo idStr s).2 = s ∧
      (download_event_poster idStr s).2 = s ∧ (download_promo_video idStr s).2 = s ∧
      (download_venue_photo idStr s).2 = s := by
  intro s idStr
  refine ⟨rfl, rfl, rfl, rfl, ?_, ?_, ?_, ?_, ?_, ?_, ?_, ?_, ?_, ?_⟩ <;>
    first
      | (simp only [get_event, get_attendee, get_venue, get_booking, get_event_poster,
          get_promo_video, get_venue_photo, download_event_poster, download_promo_video,
          download_venue_photo]
         split <;> first | rfl | (split <;> rfl))

/-! ## Claim C3: update semantics -/

/-- Claim C3: on an existing document, update replaces every validated
field of the matched document with the body's value — the stored
fields after the update are exactly the update body, independent of
the previous values, so a field omitted from the body (e.g. an
attendee's optional `phone`, which parses to `none`) reverts to its
default instead of keeping its old value.  The operation fails with
`NotFound` when no document matches, never alters any document's
identifier, and touches no other collection.  (The non-validated
`registered_at` key is not part of the `$set` dump and is kept.) -/
theorem update_replaces_validated_fields :
    (∀ (idStr oid : List Char) (a : Attendee) (s : AppState),
      validate_object_id idStr = .ok oid →
      (lookupId s.attendees oid = none →
        update_attendee idStr a s = (.error .notFound, s)) ∧
      (∀ d, lookupId s.attendees oid = some d →
        (update_attendee idStr a s).1 = .ok idStr ∧
        (update_attendee idStr a s).2.attendees.map Prod.fst =
          s.attendees.map Prod.fst ∧
        lookupId (update_attendee idStr a s).2.attendees oid =
          some ⟨a, d.registered_at⟩ ∧
        (∀ oid2, oid2 ≠ oid →
          lookupId (update_attendee idStr a s).2.attendees oid2 =
            lookupId s.attendees oid2) ∧
        (update_attendee idStr a s).2.events = s.events ∧
        (update_attendee idStr a s).2.venues = s.venues ∧
        (update_attendee idStr a s).2.bookings = s.bookings)) ∧
    (∀ (idStr oid : List Char) (e : Event) (s : AppState),
      validate_object_id idStr = .ok oid →
      (lookupId s.events oid = none →
        update_event idStr e s = (.error .notFound, s)) ∧
      (∀ d, lookupId s.events oid = some d →
        (update_event idStr e s).1 = .ok idStr ∧
        (update_event idStr e s).2.events.map Prod.fst = s.events.map Prod.fst ∧
        lookupId (update_event idStr e s).2.events oid = some e ∧
        (∀ oid2, oid2 ≠ oid →
          lookupId (update_event idStr e s).2.events oid2 =
            lookupId s.events oid2))) := by
  constructor
  · intro idStr oid a s hok
    constructor
    · intro hnone
      have hmc := matchedCount_false_of_lookup s.attendees oid hnone
      simp [update_attendee, hok, hmc]
    · intro d hd
      have hmc := matchedCount_true_of_lookup s.attendees oid d hd
      have hu : update_attendee idStr a s =
          (.ok idStr,
           { s with attendees := setById s.attendees oid (fun d0 => ⟨a, d0.registered_at⟩) }) := by
        simp [update_attendee, hok, hmc]
      rw [hu]
      refine ⟨rfl, keys_setById _ _ _, ?_,
        fun oid2 hne => lookupId_setById_ne _ _ _ _ hne, rfl, rfl, rfl⟩
      rw [lookupId_setById_self, hd]
      rfl
  · intro idStr oid e s hok
    constructor
    · intro hnone
      have hmc := matchedCount_false_of_lookup s.events oid hnone
      simp [update_event, hok, hmc]
    · intro d hd
      have hmc := matchedCount_true_of_lookup s.events oid d hd
      have hu : update_event idStr e s =
          (.ok idStr, { s with events := setById s.events oid (fun _ => e) }) := by
        simp [update_event, hok, hmc]
      rw [hu]
      refine ⟨rfl, keys_setById _ _ _, ?_,
        fun oid2 hne => lookupId_setById_ne _ _ _ _ hne⟩
      rw [lookupId_setById_self, hd]
      rfl

/-- Concrete store for the C3 witness: one attendee whose stored phone
is present. -/
def wAttOld : AttendeeDoc :=
  ⟨⟨"Old".data, "old@x.co".data, some "1234567".data⟩, 42⟩

/-- Update body for the C3 witness: `phone` omitted, i.e. `none`. -/
def wAttNew : Attendee := ⟨"New".data, "new@x.co".data, none⟩

/-- Identifier used by the C3 witness. -/
def wOid : List Char := "abcdefabcdefabcdefabcdef".data

/-- Store used by the C3 witness. -/
def wState : AppState := ⟨[], [(wOid, wAttOld)], [], [], [], [], [], 5⟩

/-- Witness for C3: updating the stored attendee with a body whose
`phone` is omitted replaces the stored fields wholesale — the stored
phone becomes `none` rather than keeping `"1234567"`. -/
theorem update_replaces_validated_fields_witness :
    validate_object_id wOid = .ok wOid ∧
    lookupId wState.attendees wOid = some wAttOld ∧
    lookupId (update_attendee wOid wAttNew wState).2.attendees wOid =
      some ⟨wAttNew, 42⟩ :=
  ⟨by decide, by decide,
   ((update_replaces_validated_fields.1 wOid wOid wAttNew wState (by decide)).2 wAttOld
     (by decide)).2.2.1⟩

/-! ## Claims C1 and C9: upload filename handling -/

/-- Claim C1 (amended): for the event poster and promo video upload
endpoints, a request whose filename is missing (absent or empty) fails
with `MissingFilename` and leaves the store unchanged, so no media
record is persisted.  (The venue photo endpoint does not perform this
check — see the counterexample and claim C9.) -/
theorem missing_filename_rejected_for_poster_and_video :
    ∀ (idStr oid : List Char) (fn ct : Option (List Char)) (content : List Nat)
      (now : Nat) (s : AppState),
      validate_object_id idStr = .ok oid → filenameMissing fn = true →
      upload_event_poster idStr fn ct content now s = (.error .missingFilename, s) ∧
      upload_promo_video idStr fn ct content now s = (.error .missingFilename, s) := by
  intro idStr oid fn ct content now s hok hmiss
  constructor
  · simp [upload_event_poster, hok, hmiss]
  · simp [upload_promo_video, hok, hmiss]

/-- Witness for C1 at a well-formed identifier and an absent filename. -/
theorem missing_filename_rejected_for_poster_and_video_witness :
    validate_object_id wOid = .ok wOid ∧ filenameMissing none = true ∧
    upload_event_poster wOid none none [] 7 emptyState =
      (.error .missingFilename, emptyState) :=
  ⟨by decide, rfl,
   (missing_filename_rejected_for_poster_and_video wOid wOid none none [] 7 emptyState
     (by decide) rfl).1⟩

/-- Counterexample to C1 as stated: the venue photo upload endpoint
(app.py lines 616-637) has no filename check — uploading with the
filename absent succeeds and persists a media record (with the
placeholder filename `"file"`), contradicting "the upload fails with a
MissingFilename error and no media record is persisted" for that
endpoint. -/
theorem venue_photo_upload_accepts_missing_filename :
    (upload_venue_photo wOid none none [] 7 emptyState).1 = .ok (genOId 0) ∧
    (upload_venue_photo wOid none none [] 7 emptyState).2.venue_photos =
      [(genOId 0, ⟨wOid, "file".data, none, .venue_photo, [], 7⟩)] := by
  exact ⟨by decide, by decide⟩

/-- Claim C9: for every well-formed venue identifier, uploading a
venue photo with the filename missing or empty succeeds — the
persisted record carries the placeholder filename `"file"`
(`file.filename or "file"` followed by `sanitize_filename`). -/
theorem venue_photo_placeholder_filename :
    ∀ (idStr oid : List Char) (fn ct : Option (List Char)) (content : List Nat)
      (now : Nat) (s : AppState),
      validate_object_id idStr = .ok oid →
      (fn = none ∨ fn = some []) →
      upload_venue_photo idStr fn ct content now s =
        (.ok (genOId s.nextId),
         { s with
             venue_photos := s.venue_photos ++ [(genOId s.nextId, ⟨oid, "file".data, ct, .venue_photo, content, now⟩)],
             nextId := s.nextId + 1 }) := by
  intro idStr oid fn ct content now s hok hfn
  have hsan : sanitize_filename "file".data = "file".data := by decide
  rcases hfn with h | h <;> subst h <;>
    simp [upload_venue_photo, hok, filenameOrDefault, hsan]

/-- Witness for C9: uploading to an empty store with an empty filename
persists one record named `"file"`. -/
theorem venue_photo_placeholder_filename_witness :
    validate_object_id wOid = .ok wOid ∧
    upload_venue_photo wOid (some []) none [] 9 emptyState =
      (.ok (genOId 0),
       { emptyState with
           venue_photos := [(genOId 0, ⟨wOid, "file".data, none, .venue_photo, [], 9⟩)],
           nextId := 1 }) :=
  ⟨by decide,
   venue_photo_placeholder_filename wOid wOid (some []) none [] 9 emptyState (by decide)
     (Or.inr rfl)⟩

/-! ## Claim C8: media list-for-owner -/

/-- Newest-first ordering on rendered metadata. -/
def metaNewerFirst (a b : MediaMeta) : Prop :=
  b.uploaded_at ≤ a.uploaded_at

/-- Claim C8: for every well-formed owner identifier, the list-for-owner
media endpoints return exactly the metadata of the owner's media
records (identifier, filename, content type, upload time, constructed
download path — the `MediaMeta` rendering carries no byte payload),
ordered newest-upload-first, and fail with `NotFound` exactly when the
owner has no media records.  Stated for `get_event_poster` and
`get_venue_photo`; `get_promo_video` is structurally identical. -/
theorem media_list_for_owner_spec :
    ∀ (idStr oid : List Char) (s : AppState),
      validate_object_id idStr = .ok oid →
      ((s.event_posters.filter (fun p => p.2.owner == oid)) = [] →
        get_event_poster idStr s = (.error .notFound, s)) ∧
      ((s.event_posters.filter (fun p => p.2.owner == oid)) ≠ [] →
        ∃ ms, get_event_poster idStr s = (.ok ms, s) ∧
          ms.Perm ((s.event_posters.filter (fun p => p.2.owner == oid)).map posterMeta) ∧
          List.Sorted metaNewerFirst ms) ∧
      ((s.venue_photos.filter (fun p => p.2.owner == oid)) = [] →
        get_venue_photo idStr s = (.error .notFound, s)) ∧
      ((s.venue_photos.filter (fun p => p.2.owner == oid)) ≠ [] →
        ∃ ms, get_venue_photo idStr s = (.ok ms, s) ∧
          ms.Perm ((s.venue_photos.filter (fun p => p.2.owner == oid)).map photoMeta) ∧
          List.Sorted metaNewerFirst ms) := by
  intro idStr oid s hok
  refine ⟨?_, ?_, ?_, ?_⟩
  · intro hfil
    have hF : findByOwnerNewest s.event_posters oid = [] := by
      rw [findByOwnerNewest, hfil]; rfl
    simp [get_event_poster, hok, hF]
  · intro hfil
    have hperm := List.perm_insertionSort newerFirst
      (s.event_posters.filter (fun p => p.2.owner == oid))
    have hne2 : findByOwnerNewest s.event_posters oid ≠ [] := by
      intro h0
      rw [findByOwnerNewest] at h0
      rw [h0] at hperm
      exact hfil hperm.symm.eq_nil
    have hE : (findByOwnerNewest s.event_posters oid).isEmpty = false := by
      cases hF : findByOwnerNewest s.event_posters oid with
      | nil => exact absurd hF hne2
      | cons a t => rfl
    refine ⟨(findByOwnerNewest s.event_posters oid).map posterMeta, ?_, ?_, ?_⟩
    · simp [get_event_poster, hok, hE]
    · exact List.Perm.map posterMeta hperm
    · have hs := List.sorted_insertionSort newerFirst
        (s.event_posters.filter (fun p => p.2.owner == oid))
      exact List.pairwise_map.mpr (hs.imp (fun h => h))
  · intro hfil
    have hF : findByOwnerNewest s.venue_photos oid = [] := by
      rw [findByOwnerNewest, hfil]; rfl
    simp [get_venue_photo, hok, hF]
  · intro hfil
    have hperm := List.perm_insertionSort newerFirst
      (s.venue_photos.filter (fun p => p.2.owner == oid))
    have hne2 : findByOwnerNewest s.venue_photos oid ≠ [] := by
      intro h0
      rw [findByOwnerNewest] at h0
      rw [h0] at hperm
      exact hfil hperm.symm.eq_nil
    have hE : (findByOwnerNewest s.venue_photos oid).isEmpty = false := by
      cases hF : findByOwnerNewest s.venue_photos oid with
      | nil => exact absurd hF hne2
      | cons a t => rfl
    refine ⟨(findByOwnerNewest s.venue_photos oid).map photoMeta, ?_, ?_, ?_⟩
    · simp [get_venue_photo, hok, hE]
    · exact List.Perm.map photoMeta hperm
    · have hs := List.sorted_insertionSort newerFirst
        (s.venue_photos.filter (fun p => p.2.owner == oid))
      exact List.pairwise_map.mpr (hs.imp (fun h => h))

/-- Media records for the C8 witness: two posters with different
upload instants. -/
def wMedia1 : MediaDoc := ⟨wOid, "a.jpg".data, some "image/jpeg".data, .poster, [1], 10⟩

/-- Second media record for the C8 witness (uploaded later). -/
def wMedia2 : MediaDoc := ⟨wOid, "b.jpg".data, some "image/jpeg".data, .poster, [2], 20⟩

/-- Store for the C8 witness. -/
def wMediaState : AppState :=
  ⟨[], [], [], [], [(genOId 0, wMedia1), (genOId 1, wMedia2)], [], [], 2⟩

/-- Witness for C8: with two posters stored oldest-first, the endpoint
returns the later upload first, as metadata only. -/
theorem media_list_for_owner_spec_witness :
    validate_object_id wOid = .ok wOid ∧
    get_event_poster wOid wMediaState =
      (.ok [posterMeta (genOId 1, wMedia2), posterMeta (genOId 0, wMedia1)], wMediaState) ∧
    (∃ ms, get_event_poster wOid wMediaState = (.ok ms, wMediaState) ∧
      ms.Perm ((wMediaState.event_posters.filter (fun p => p.2.owner == wOid)).map posterMeta) ∧
      List.Sorted metaNewerFirst ms) :=
  ⟨by decide, by decide,
   (media_list_for_owner_spec wOid wOid wMediaState (by decide)).2.1 (by decide)⟩

end EventApp
